import Mathlib

/-!
Verification development for the fake-news-detector server core.

The TypeScript source is shallowly embedded in Lean:

* money and percentages (`number` in TS) are modelled as rationals `ℚ`;
* the Redis keyspace is an association list `String → RVal` with an
  expiry map and a health flag; backing-store failure is the flag set
  to `false`, making every primitive command return an error that the
  service layer catches exactly where the source catches it;
* the Postgres-backed models (`BudgetModel`, `AnalysisModel`) carry an
  explicit table (a list of rows) and a health flag;
* fallible TS code (Zod `parse`, `pool.query`, redis commands) returns
  `Except String`, and `try`/`catch` blocks become `match` on it;
* wall-clock time is an explicit `Nat` (seconds); `Date.now()` is the
  clock times 1000.

Definitions keep the source's names and structure; each block of
definitions cites the source file it embeds.
-/

namespace FakeNews

/-! ## Association-list store primitives -/

/-- Lookup in an association list (first binding wins, like a keyed table). -/
def alGet {α : Type} (k : String) : List (String × α) → Option α
  | [] => none
  | (k2, v) :: rest => if k2 = k then some v else alGet k rest

/-- Set a key in an association list, replacing an existing binding. -/
def alSet {α : Type} (k : String) (v : α) : List (String × α) → List (String × α)
  | [] => [(k, v)]
  | (k2, v2) :: rest => if k2 = k then (k, v) :: rest else (k2, v2) :: alSet k v rest

/-- Remove every binding of a key from an association list. -/
def alDel {α : Type} (k : String) : List (String × α) → List (String × α)
  | [] => []
  | (k2, v2) :: rest => if k2 = k then alDel k rest else (k2, v2) :: alDel k rest

@[simp] theorem alGet_alSet_self {α : Type} (k : String) (v : α) (l : List (String × α)) :
    alGet k (alSet k v l) = some v := by
  induction l with
  | nil => simp [alGet, alSet]
  | cons hd tl ih =>
    obtain ⟨k2, v2⟩ := hd
    by_cases h : k2 = k <;> simp [alGet, alSet, h, ih]

theorem alGet_alSet_ne {α : Type} (k k2 : String) (v : α) (l : List (String × α))
    (h : k2 ≠ k) : alGet k2 (alSet k v l) = alGet k2 l := by
  induction l with
  | nil => simp [alGet, alSet, Ne.symm h]
  | cons hd tl ih =>
    obtain ⟨k3, v3⟩ := hd
    by_cases h3 : k3 = k
    · subst h3
      simp [alGet, alSet, Ne.symm h]
    · simp only [alSet, if_neg h3, alGet, ih]

@[simp] theorem alGet_alDel_self {α : Type} (k : String) (l : List (String × α)) :
    alGet k (alDel k l) = none := by
  induction l with
  | nil => simp [alGet, alDel]
  | cons hd tl ih =>
    obtain ⟨k2, v2⟩ := hd
    by_cases h : k2 = k <;> simp [alGet, alDel, h, ih]

theorem alGet_alDel_ne {α : Type} (k k2 : String) (l : List (String × α))
    (h : k2 ≠ k) : alGet k2 (alDel k l) = alGet k2 l := by
  induction l with
  | nil => simp [alDel]
  | cons hd tl ih =>
    obtain ⟨k3, v3⟩ := hd
    by_cases h3 : k3 = k
    · subst h3
      simp [alDel, alGet, Ne.symm h, ih]
    · simp only [alDel, if_neg h3, alGet, ih]

/-! ## UTF-8 and SHA-256

`generateAnalysisKey` in `src/services/redis.ts` hashes the canonical
content string with Node's `crypto.createHash("sha256")`, which encodes
the string as UTF-8. Both are embedded as executable functions.
-/

/-- UTF-8 encoding of one character, as byte values. -/
def charUtf8 (c : Char) : List Nat :=
  let n := c.toNat
  if n < 128 then [n]
  else if n < 2048 then [192 + (n >>> 6), 128 + (n % 64)]
  else if n < 65536 then
    [224 + (n >>> 12), 128 + ((n >>> 6) % 64), 128 + (n % 64)]
  else
    [240 + (n >>> 18), 128 + ((n >>> 12) % 64), 128 + ((n >>> 6) % 64), 128 + (n % 64)]

/-- UTF-8 encoding of a string, as byte values. -/
def utf8Bytes (s : String) : List Nat :=
  (s.data.map charUtf8).flatten

/-- Truncation to a 32-bit word. -/
def w32 (x : Nat) : Nat := x % 4294967296

/-- Right rotation of a 32-bit word by `n` bits. -/
def rotr32 (n x : Nat) : Nat := w32 ((x >>> n) ||| (x <<< (32 - n)))

/-- SHA-256 big sigma-0. -/
def bSig0 (x : Nat) : Nat := (rotr32 2 x) ^^^ (rotr32 13 x) ^^^ (rotr32 22 x)

/-- SHA-256 big sigma-1. -/
def bSig1 (x : Nat) : Nat := (rotr32 6 x) ^^^ (rotr32 11 x) ^^^ (rotr32 25 x)

/-- SHA-256 small sigma-0. -/
def sSig0 (x : Nat) : Nat := (rotr32 7 x) ^^^ (rotr32 18 x) ^^^ (x >>> 3)

/-- SHA-256 small sigma-1. -/
def sSig1 (x : Nat) : Nat := (rotr32 17 x) ^^^ (rotr32 19 x) ^^^ (x >>> 10)

/-- SHA-256 choice function. -/
def chFn (x y z : Nat) : Nat := (x &&& y) ^^^ ((x ^^^ 4294967295) &&& z)

/-- SHA-256 majority function. -/
def majFn (x y z : Nat) : Nat := (x &&& y) ^^^ (x &&& z) ^^^ (y &&& z)

/-- SHA-256 working state: eight 32-bit words. -/
structure Sha2State where
  a : Nat
  b : Nat
  c : Nat
  d : Nat
  e : Nat
  f : Nat
  g : Nat
  h : Nat
deriving DecidableEq, Repr

/-- SHA-256 initial hash value. -/
def sha2Init : Sha2State :=
  ⟨1779033703, 3144134277, 1013904242, 2773480762,
   1359893119, 2600822924, 528734635, 1541459225⟩

/-- SHA-256 round constants. -/
def k256 : List Nat :=
  [1116352408, 1899447441, 3049323471, 3921009573, 961987163,
   1508970993, 2453635748, 2870763221, 3624381080, 310598401,
   607225278, 1426881987, 1925078388, 2162078206, 2614888103,
   3248222580, 3835390401, 4022224774, 264347078, 604807628,
   770255983, 1249150122, 1555081692, 1996064986, 2554220882,
   2821834349, 2952996808, 3210313671, 3336571891, 3584528711,
   113926993, 338241895, 666307205, 773529912, 1294757372,
   1396182291, 1695183700, 1986661051, 2177026350, 2456956037,
   2730485921, 2820302411, 3259730800, 3345764771, 3516065817,
   3600352804, 4094571909, 275423344, 430227734, 506948616,
   659060556, 883997877, 958139571, 1322822218, 1537002063,
   1747873779, 1955562222, 2024104815, 2227730452, 2361852424,
   2428436474, 2756734187, 3204031479, 3329325298]

/-- Next message-schedule word, given the already-produced words with the
most recent first. -/
def schedNext (r : List Nat) : Nat :=
  w32 (sSig1 (r.getD 1 0) + r.getD 6 0 + sSig0 (r.getD 14 0) + r.getD 15 0)

/-- Extend the reversed schedule by `n` words. -/
def extendSched : Nat → List Nat → List Nat
  | 0, r => r.reverse
  | n + 1, r => extendSched n (schedNext r :: r)

/-- Full 64-word message schedule from a 16-word block. -/
def schedule (ws : List Nat) : List Nat := extendSched 48 ws.reverse

/-- One SHA-256 round. -/
def roundStep (st : Sha2State) (kw w : Nat) : Sha2State :=
  let t1 := w32 (st.h + bSig1 st.e + chFn st.e st.f st.g + kw + w)
  let t2 := w32 (bSig0 st.a + majFn st.a st.b st.c)
  ⟨w32 (t1 + t2), st.a, st.b, st.c, w32 (st.d + t1), st.e, st.f, st.g⟩

/-- SHA-256 compression of one 16-word block into the running state. -/
def compress (st : Sha2State) (block : List Nat) : Sha2State :=
  let ws := schedule block
  let fin := (k256.zip ws).foldl (fun s p => roundStep s p.1 p.2) st
  ⟨w32 (st.a + fin.a), w32 (st.b + fin.b), w32 (st.c + fin.c), w32 (st.d + fin.d),
   w32 (st.e + fin.e), w32 (st.f + fin.f), w32 (st.g + fin.g), w32 (st.h + fin.h)⟩

/-- Group bytes into big-endian 32-bit words. -/
def bytesToWords : List Nat → List Nat
  | b0 :: b1 :: b2 :: b3 :: rest =>
    (b0 * 16777216 + b1 * 65536 + b2 * 256 + b3) :: bytesToWords rest
  | _ => []

/-- Split a padded byte list into 64-byte blocks of 16 words (fuelled). -/
def toBlocksAux : Nat → List Nat → List (List Nat)
  | 0, _ => []
  | _, [] => []
  | n + 1, l => bytesToWords (l.take 64) :: toBlocksAux n (l.drop 64)

/-- Split a padded byte list into 16-word blocks. -/
def toBlocks (l : List Nat) : List (List Nat) := toBlocksAux l.length l

/-- Big-endian 8-byte encoding of a length in bits. -/
def lenBytes (n : Nat) : List Nat :=
  [(n >>> 56) % 256, (n >>> 48) % 256, (n >>> 40) % 256, (n >>> 32) % 256,
   (n >>> 24) % 256, (n >>> 16) % 256, (n >>> 8) % 256, n % 256]

/-- SHA-256 padding: a 0x80 byte, zeros to 56 mod 64, then the bit length. -/
def padMsg (m : List Nat) : List Nat :=
  let zeros := (64 - ((m.length + 9) % 64)) % 64
  m ++ [128] ++ List.replicate zeros 0 ++ lenBytes (m.length * 8)

/-- SHA-256 of a byte list, as the final eight-word state. -/
def sha256Words (msg : List Nat) : Sha2State :=
  (toBlocks (padMsg msg)).foldl compress sha2Init

/-- Big-endian bytes of one 32-bit word. -/
def wordBytes (w : Nat) : List Nat :=
  [(w >>> 24) % 256, (w >>> 16) % 256, (w >>> 8) % 256, w % 256]

/-- The 32 digest bytes of a final SHA-256 state. -/
def stateBytes (s : Sha2State) : List Nat :=
  wordBytes s.a ++ wordBytes s.b ++ wordBytes s.c ++ wordBytes s.d ++
  wordBytes s.e ++ wordBytes s.f ++ wordBytes s.g ++ wordBytes s.h

/-- Lowercase hexadecimal digit. -/
def hexDigit (n : Nat) : Char :=
  if n < 10 then Char.ofNat (48 + n) else Char.ofNat (87 + n)

/-- Lowercase hexadecimal rendering of a byte list. -/
def bytesToHex (l : List Nat) : List Char :=
  (l.map (fun b => [hexDigit (b / 16), hexDigit (b % 16)])).flatten

/-- Hex digest of the SHA-256 hash of a string, as Node's
`createHash("sha256").update(s).digest("hex")` produces it. -/
def sha256hex (s : String) : String :=
  String.mk (bytesToHex (stateBytes (sha256Words (utf8Bytes s))))

set_option maxRecDepth 100000 in
/-- Sanity check of the hash embedding against the standard "abc" test
vector of FIPS 180-4. -/
theorem sha256hex_abc :
    sha256hex "abc" =
      "ba7816bf8f01cfea414140de5dae2223b00361a396177a9cb410ff61f20015ad" := by
  decide

/-- Embeds `generateAnalysisKey` of `src/services/redis.ts` (unnamed
part_002, lines 88-92): the canonical content is `"url:" + url` when
`url` is truthy (present and non-empty), else `"text:" + text`, and the
key is the namespace plus the hex SHA-256 digest of the content. -/
def generateAnalysisKey (text : String) (url : Option String) : String :=
  let content :=
    match url with
    | some u => if u = "" then "text:" ++ text else "url:" ++ u
    | none => "text:" ++ text
  "analysis:" ++ sha256hex content

/-- Length of a hex digest: always 64 characters. -/
theorem sha256hex_length (s : String) : (sha256hex s).length = 64 := by
  simp [sha256hex, bytesToHex, stateBytes, wordBytes, String.length]

/-- Length of a generated analysis cache key: the 9-character namespace
plus 64 hex characters. -/
theorem generateAnalysisKey_length (t : String) (u : Option String) :
    (generateAnalysisKey t u).length = 73 := by
  have h9 : "analysis:".length = 9 := rfl
  cases u with
  | none => simp [generateAnalysisKey, String.length_append, sha256hex_length, h9]
  | some v =>
    by_cases h : v = "" <;>
      simp [generateAnalysisKey, h, String.length_append, sha256hex_length, h9]

/-- Success test for an `Except`, mirroring whether the TS code reached
the end of the `try` block without throwing. -/
def exOk {α : Type} : Except String α → Bool
  | .ok _ => true
  | .error _ => false

/-! ## BudgetModel

Embeds the budget half of unnamed part_001 (`BudgetModel.ts`): the Zod
schemas become validating functions returning `Except`, the
`budget_tracking` table becomes an association list keyed by
`month_year`, and the wall-clock current month becomes an explicit
argument. Row ids and timestamps carry no behaviour used by the claims
and are dropped. `pool.query` failure is the `up` flag being `false`.
-/

/-- Row of the `budget_tracking` table (behavioural fields only). -/
structure BudgetTracking where
  month_year : String
  total_used : ℚ
  total_remaining : ℚ
  percentage_used : ℚ
deriving DecidableEq, Repr

/-- The budget backing store: a health flag and the table. -/
structure BudgetDB where
  up : Bool
  rows : List (String × BudgetTracking)
deriving DecidableEq, Repr

/-- Test for the `YYYY-MM` shape required by `MonthYearSchema`'s regex. -/
def monthFormatOk (s : String) : Bool :=
  match s.data with
  | [y1, y2, y3, y4, d, m1, m2] =>
    y1.isDigit && y2.isDigit && y3.isDigit && y4.isDigit &&
      d == '-' && m1.isDigit && m2.isDigit
  | _ => false

/-- Embeds `CreateBudgetSchema.parse`: month format, `total_used ≥ 0`,
`total_remaining ≥ 0`, `0 ≤ percentage_used ≤ 100`. -/
def parseCreateBudget (month : String) (used rem pct : ℚ) :
    Except String BudgetTracking :=
  if ¬ monthFormatOk month then .error "Month must be in YYYY-MM format"
  else if used < 0 then .error "Total used must be non-negative"
  else if rem < 0 then .error "Total remaining must be non-negative"
  else if pct < 0 then .error "Percentage must be at least 0"
  else if 100 < pct then .error "Percentage must be at most 100"
  else .ok ⟨month, used, rem, pct⟩

/-- Embeds `UpdateBudgetSchema.parse` for the fully-specified update that
`addCost` issues. -/
def parseUpdateBudget (used rem pct : ℚ) : Except String Unit :=
  if used < 0 then .error "Total used must be non-negative"
  else if rem < 0 then .error "Total remaining must be non-negative"
  else if pct < 0 then .error "Percentage must be at least 0"
  else if 100 < pct then .error "Percentage must be at most 100"
  else .ok ()

/-- Embeds `AddCostSchema.parse`: the amount must be non-negative. -/
def parseAddCost (amount : ℚ) : Except String ℚ :=
  if amount < 0 then .error "Amount must be non-negative" else .ok amount

/-- Embeds `BudgetThresholdSchema.parse`: `0 ≤ threshold ≤ 100`,
default 90. -/
def parseThreshold (t : ℚ) : Except String ℚ :=
  if t < 0 then .error "Threshold must be at least 0"
  else if 100 < t then .error "Threshold must be at most 100"
  else .ok t

namespace BudgetModel

/-- Embeds `BudgetModel.create` (part_001 lines 51-70): validate, then
INSERT. Validation failure throws before the write; a down store throws
at the write. -/
def create (month : String) (used rem pct : ℚ) (db : BudgetDB) :
    Except String BudgetTracking × BudgetDB :=
  match parseCreateBudget month used rem pct with
  | .error e => (.error e, db)
  | .ok row =>
    if db.up then (.ok row, ⟨db.up, alSet month row db.rows⟩)
    else (.error "pool down", db)

/-- Embeds `BudgetModel.getByMonthYear` (lines 94-99): validate the
month string, then SELECT. -/
def getByMonthYear (month : String) (db : BudgetDB) :
    Except String (Option BudgetTracking) :=
  match (if monthFormatOk month then Except.ok month
         else Except.error "Month must be in YYYY-MM format") with
  | .error e => .error e
  | .ok m => if db.up then .ok (alGet m db.rows) else .error "pool down"

/-- Embeds `BudgetModel.update` (lines 108-145) as `addCost` issues it,
with all three numeric fields present: validate, then UPDATE the row
fetched for the month (addressed by its id in the source). Returns the
updated row, or `none` when the row has vanished. -/
def update (month : String) (used rem pct : ℚ) (db : BudgetDB) :
    Except String (Option BudgetTracking) × BudgetDB :=
  match parseUpdateBudget used rem pct with
  | .error e => (.error e, db)
  | .ok _ =>
    if db.up then
      match alGet month db.rows with
      | none => (.ok none, db)
      | some old =>
        let newRow : BudgetTracking :=
          ⟨old.month_year, used, rem, pct⟩
        (.ok (some newRow), ⟨db.up, alSet month newRow db.rows⟩)
    else (.error "pool down", db)

/-- Embeds `BudgetModel.addCost` (lines 156-185): validate the amount,
fetch the current month's row; create a fresh row on first use of the
month (cap hard-coded at 25), otherwise update with the accumulated
figures. The JS expression `newTotalUsed / (newTotalUsed +
newTotalRemaining) * 100` is transcribed literally. -/
def addCost (amount : ℚ) (month : String) (db : BudgetDB) :
    Except String (Option BudgetTracking) × BudgetDB :=
  match parseAddCost amount with
  | .error e => (.error e, db)
  | .ok amt =>
    match getByMonthYear month db with
    | .error e => (.error e, db)
    | .ok none =>
      let r := create month amt (25 - amt) (amt / 25 * 100) db
      (r.1.map some, r.2)
    | .ok (some b) =>
      let newUsed := b.total_used + amt
      let newRem := b.total_remaining - amt
      let newPct := newUsed / (newUsed + newRem) * 100
      update month newUsed newRem newPct db

/-- Result record of `isBudgetExceeded`. -/
structure BudgetStatus where
  exceeded : Bool
  currentBudget : Option BudgetTracking
  percentageUsed : ℚ
deriving DecidableEq, Repr

/-- Embeds `BudgetModel.isBudgetExceeded` (lines 200-221): validate the
threshold (default 90), fetch the current month's row, and compare its
stored `percentage_used` against the threshold. No row means not
exceeded. -/
def isBudgetExceeded (month : String) (db : BudgetDB) (threshold : ℚ := 90) :
    Except String BudgetStatus :=
  match parseThreshold threshold with
  | .error e => .error e
  | .ok t =>
    match getByMonthYear month db with
    | .error e => .error e
    | .ok none => .ok ⟨false, none, 0⟩
    | .ok (some b) => .ok ⟨decide (t ≤ b.percentage_used), some b, b.percentage_used⟩

end BudgetModel

/-- Invariant of every budget row that `addCost` itself writes: the two
stored absolute figures are non-negative and sum to the $25 cap, and the
stored percentage is the derived one. -/
def rowInv (b : BudgetTracking) : Prop :=
  0 ≤ b.total_used ∧ 0 ≤ b.total_remaining ∧
    b.total_used + b.total_remaining = 25 ∧
    b.percentage_used = b.total_used / 25 * 100

instance (b : BudgetTracking) : Decidable (rowInv b) := by
  unfold rowInv
  infer_instance

/-- The empty, healthy budget store. -/
def dbEmpty : BudgetDB := ⟨true, []⟩

/-- A healthy store whose current-month row stands at 96% of the cap
($24 used of $25). -/
def dbNearCap : BudgetDB := ⟨true, [("2025-10", ⟨"2025-10", 24, 1, 96⟩)]⟩

/-- Evaluation of `Except.toOption` on a success. -/
theorem toOption_ok {α : Type} (x : α) :
    (Except.ok x : Except String α).toOption = some x := rfl

/-- Store after `addCost(24.999)` on a fresh month (scenario B, step 1). -/
def scenB1 : BudgetDB := (BudgetModel.addCost (24999/1000) "2025-10" dbEmpty).2

/-- Exactly the condition under which recording `amount` on top of the
given current row would breach the cap: the updated `total_remaining`
would be negative or the updated `percentage_used` would exceed 100,
with both fields computed as `addCost` computes them. -/
def wouldExceed (amount : ℚ) : Option BudgetTracking → Prop
  | none => 25 - amount < 0 ∨ 100 < amount / 25 * 100
  | some b =>
    b.total_remaining - amount < 0 ∨
      100 < (b.total_used + amount) /
        ((b.total_used + amount) + (b.total_remaining - amount)) * 100

instance (amount : ℚ) (cur : Option BudgetTracking) :
    Decidable (wouldExceed amount cur) := by
  unfold wouldExceed
  cases cur <;> infer_instance

/-! Evaluation lemmas for `BudgetModel`, used by several claims. -/

theorem parseCreateBudget_ok (month : String) (used rem pct : ℚ)
    (hm : monthFormatOk month = true) (h1 : 0 ≤ used) (h2 : 0 ≤ rem)
    (h3 : 0 ≤ pct) (h4 : pct ≤ 100) :
    parseCreateBudget month used rem pct = .ok ⟨month, used, rem, pct⟩ := by
  simp [parseCreateBudget, hm, not_lt.mpr h1, not_lt.mpr h2, not_lt.mpr h3,
    not_lt.mpr h4]

theorem parseUpdateBudget_ok (used rem pct : ℚ) (h1 : 0 ≤ used) (h2 : 0 ≤ rem)
    (h3 : 0 ≤ pct) (h4 : pct ≤ 100) :
    parseUpdateBudget used rem pct = .ok () := by
  simp [parseUpdateBudget, not_lt.mpr h1, not_lt.mpr h2, not_lt.mpr h3,
    not_lt.mpr h4]

/-- First `addCost` of a month with no stored row: creates the fresh
period accruing from zero. -/
theorem addCost_cold (a : ℚ) (month : String) (db : BudgetDB)
    (hup : db.up = true) (hm : monthFormatOk month = true)
    (hcold : alGet month db.rows = none) (ha : 0 ≤ a) (ha25 : a ≤ 25) :
    BudgetModel.addCost a month db
      = (.ok (some ⟨month, a, 25 - a, a / 25 * 100⟩),
         ⟨true, alSet month ⟨month, a, 25 - a, a / 25 * 100⟩ db.rows⟩) := by
  have h4 : a / 25 * 100 = 4 * a := by ring
  simp [BudgetModel.addCost, BudgetModel.getByMonthYear, parseAddCost, hm, hup,
    hcold, not_lt.mpr ha, BudgetModel.create, Except.map,
    parseCreateBudget_ok month a (25 - a) (a / 25 * 100) hm ha (by linarith)
      (by rw [h4]; linarith) (by rw [h4]; linarith)]

/-- An `addCost` that fits inside the stored remaining budget: updates
the row with the accumulated figures. -/
theorem addCost_warm (a : ℚ) (month : String) (db : BudgetDB) (b : BudgetTracking)
    (hup : db.up = true) (hm : monthFormatOk month = true)
    (hget : alGet month db.rows = some b)
    (ha : 0 ≤ a) (hbu : 0 ≤ b.total_used)
    (hsum : b.total_used + b.total_remaining = 25)
    (hfits : a ≤ b.total_remaining) :
    BudgetModel.addCost a month db
      = (.ok (some ⟨b.month_year, b.total_used + a, b.total_remaining - a,
            (b.total_used + a) / ((b.total_used + a) + (b.total_remaining - a)) * 100⟩),
         ⟨true, alSet month ⟨b.month_year, b.total_used + a, b.total_remaining - a,
            (b.total_used + a) / ((b.total_used + a) + (b.total_remaining - a)) * 100⟩
           db.rows⟩) := by
  have hpeq : (b.total_used + a) / (b.total_used + b.total_remaining) * 100
      = 4 * (b.total_used + a) := by
    rw [hsum]
    ring
  simp [BudgetModel.addCost, BudgetModel.getByMonthYear, parseAddCost, hm, hup,
    hget, not_lt.mpr ha, BudgetModel.update,
    parseUpdateBudget_ok (b.total_used + a) (b.total_remaining - a)
      ((b.total_used + a) / (b.total_used + b.total_remaining) * 100)
      (by linarith) (by linarith) (by rw [hpeq]; linarith) (by rw [hpeq]; linarith)]

/-- An `addCost` that would overdraw the stored remaining budget: the
update is rejected by `UpdateBudgetSchema` before any write. -/
theorem addCost_warm_reject (a : ℚ) (month : String) (db : BudgetDB)
    (b : BudgetTracking) (hup : db.up = true) (hm : monthFormatOk month = true)
    (hget : alGet month db.rows = some b)
    (ha : 0 ≤ a) (hbu : 0 ≤ b.total_used) (hover : b.total_remaining < a) :
    BudgetModel.addCost a month db
      = (.error "Total remaining must be non-negative", db) := by
  simp [BudgetModel.addCost, BudgetModel.getByMonthYear, parseAddCost, hm, hup,
    hget, not_lt.mpr ha, BudgetModel.update, parseUpdateBudget,
    not_lt.mpr (by linarith : (0 : ℚ) ≤ b.total_used + a),
    (by linarith : b.total_remaining - a < 0)]

/-- Evaluation of `isBudgetExceeded` at a month with a stored row and a
valid threshold. -/
theorem isBudgetExceeded_some (month : String) (db : BudgetDB) (b : BudgetTracking)
    (t : ℚ) (hup : db.up = true) (hm : monthFormatOk month = true)
    (hget : alGet month db.rows = some b) (ht0 : 0 ≤ t) (ht100 : t ≤ 100) :
    BudgetModel.isBudgetExceeded month db t
      = .ok ⟨decide (t ≤ b.percentage_used), some b, b.percentage_used⟩ := by
  simp [BudgetModel.isBudgetExceeded, parseThreshold, BudgetModel.getByMonthYear,
    hup, hm, hget, not_lt.mpr ht0, not_lt.mpr ht100]

/-- Claim C7, counterexample. The claim says the default threshold of
`isExceeded` is 100% — but at a stored 96% the default call already
reports exceeded while the explicit 100% call does not, so the default
is 90, not 100. The claim's scenario also fails: after
`addCost(24.999)`, the subsequent `addCost(0.002)` does not flip
`isExceeded(100%)` to true — it throws a Zod validation error (the
updated `total_remaining` would be -0.001), leaves the store unchanged,
and `isExceeded(100%)` stays false. -/
theorem claim7_counterexample :
    ((BudgetModel.isBudgetExceeded "2025-10" dbNearCap).toOption.map
        BudgetModel.BudgetStatus.exceeded = some true
      ∧ (BudgetModel.isBudgetExceeded "2025-10" dbNearCap 100).toOption.map
          BudgetModel.BudgetStatus.exceeded = some false)
    ∧ exOk (BudgetModel.addCost (24999/1000) "2025-10" dbEmpty).1 = true
    ∧ (BudgetModel.isBudgetExceeded "2025-10" scenB1 100).toOption.map
        BudgetModel.BudgetStatus.exceeded = some false
    ∧ exOk (BudgetModel.addCost (2/1000) "2025-10" scenB1).1 = false
    ∧ (BudgetModel.addCost (2/1000) "2025-10" scenB1).2 = scenB1
    ∧ (BudgetModel.isBudgetExceeded "2025-10"
          (BudgetModel.addCost (2/1000) "2025-10" scenB1).2 100).toOption.map
        BudgetModel.BudgetStatus.exceeded = some false := by
  have hrow : alGet "2025-10" dbNearCap.rows = some ⟨"2025-10", 24, 1, 96⟩ := rfl
  have e90 := isBudgetExceeded_some "2025-10" dbNearCap ⟨"2025-10", 24, 1, 96⟩ 90
    rfl rfl hrow (by norm_num) (by norm_num)
  have e100 := isBudgetExceeded_some "2025-10" dbNearCap ⟨"2025-10", 24, 1, 96⟩ 100
    rfl rfl hrow (by norm_num) (by norm_num)
  have h1 := addCost_cold (24999/1000) "2025-10" dbEmpty rfl rfl rfl
    (by norm_num) (by norm_num)
  have hsb : scenB1 = ⟨true, alSet "2025-10"
      ⟨"2025-10", 24999/1000, 25 - 24999/1000, 24999/1000 / 25 * 100⟩ []⟩ := by
    unfold scenB1
    rw [h1]
    rfl
  have hrowB : alGet "2025-10" scenB1.rows
      = some ⟨"2025-10", 24999/1000, 25 - 24999/1000, 24999/1000 / 25 * 100⟩ := by
    rw [hsb]
    exact alGet_alSet_self _ _ _
  have eB100 := isBudgetExceeded_some "2025-10" scenB1
    ⟨"2025-10", 24999/1000, 25 - 24999/1000, 24999/1000 / 25 * 100⟩ 100
    (by rw [hsb]) rfl hrowB (by norm_num) (by norm_num)
  have hreject := addCost_warm_reject (2/1000) "2025-10" scenB1
    ⟨"2025-10", 24999/1000, 25 - 24999/1000, 24999/1000 / 25 * 100⟩
    (by rw [hsb]) rfl hrowB (by norm_num) (by norm_num) (by norm_num)
  refine ⟨⟨?_, ?_⟩, ?_, ?_, ?_, ?_, ?_⟩
  · rw [show BudgetModel.isBudgetExceeded "2025-10" dbNearCap
        = BudgetModel.isBudgetExceeded "2025-10" dbNearCap 90 from rfl, e90,
      toOption_ok]
    decide
  · rw [e100, toOption_ok]
    decide
  · rw [h1]
    rfl
  · rw [eB100, toOption_ok, Option.map_some']
    exact congrArg some (decide_eq_false (by norm_num))
  · rw [hreject]
    rfl
  · rw [hreject]
  · rw [hreject, eB100, toOption_ok, Option.map_some']
    exact congrArg some (decide_eq_false (by norm_num))

/-- Claim C7 as amended: `isExceeded` compares the stored
`percentage_used` against a caller-supplied threshold whose default is
90 (not 100); with threshold 100 it reports exceeded exactly when
`total_used` has reached the $25 cap (on rows satisfying the accrual
invariant); and in scenario B the first `addCost(24.999)` succeeds with
`isExceeded(100%) = false`, while the subsequent `addCost(0.002)`
throws a validation error and leaves the store — hence the flag —
unchanged. -/
theorem claim7_amended :
    (∀ (month : String) (db : BudgetDB),
      BudgetModel.isBudgetExceeded month db
        = BudgetModel.isBudgetExceeded month db 90)
    ∧ (∀ (month : String) (db : BudgetDB) (b : BudgetTracking),
        db.up = true → monthFormatOk month = true →
        alGet month db.rows = some b → rowInv b →
        (BudgetModel.isBudgetExceeded month db 100).toOption.map
            BudgetModel.BudgetStatus.exceeded
          = some (decide (25 ≤ b.total_used)))
    ∧ (∀ (month : String) (db : BudgetDB),
        db.up = true → monthFormatOk month = true →
        alGet month db.rows = none →
        exOk (BudgetModel.addCost (24999/1000) month db).1 = true
        ∧ (BudgetModel.isBudgetExceeded month
              (BudgetModel.addCost (24999/1000) month db).2 100).toOption.map
            BudgetModel.BudgetStatus.exceeded = some false
        ∧ exOk (BudgetModel.addCost (2/1000) month
              (BudgetModel.addCost (24999/1000) month db).2).1 = false
        ∧ (BudgetModel.addCost (2/1000) month
              (BudgetModel.addCost (24999/1000) month db).2).2
            = (BudgetModel.addCost (24999/1000) month db).2) := by
  refine ⟨fun month db => rfl, ?_, ?_⟩
  · intro month db b hup hm hget hinv
    have h4 : b.total_used / 25 * 100 = 4 * b.total_used := by ring
    have hiff : ((100 : ℚ) ≤ b.percentage_used) ↔ (25 ≤ b.total_used) := by
      rw [hinv.2.2.2, h4]
      constructor <;> intro hle <;> linarith
    rw [isBudgetExceeded_some month db b 100 hup hm hget (by norm_num)
      (by norm_num), toOption_ok, Option.map_some']
    exact congrArg some (decide_eq_decide.mpr hiff)
  · intro month db hup hm hget
    have h1 := addCost_cold (24999/1000) month db hup hm hget (by norm_num)
      (by norm_num)
    rw [h1]
    have hrow : alGet month
        (alSet month (⟨month, 24999/1000, 25 - 24999/1000,
          24999/1000 / 25 * 100⟩ : BudgetTracking) db.rows) = some
        ⟨month, 24999/1000, 25 - 24999/1000, 24999/1000 / 25 * 100⟩ :=
      alGet_alSet_self month _ db.rows
    have hreject := addCost_warm_reject (2/1000) month
      ⟨true, alSet month (⟨month, 24999/1000, 25 - 24999/1000,
        24999/1000 / 25 * 100⟩ : BudgetTracking) db.rows⟩
      ⟨month, 24999/1000, 25 - 24999/1000, 24999/1000 / 25 * 100⟩
      rfl hm hrow (by norm_num) (by norm_num) (by norm_num)
    refine ⟨rfl, ?_, ?_, ?_⟩
    · rw [isBudgetExceeded_some month _
        ⟨month, 24999/1000, 25 - 24999/1000, 24999/1000 / 25 * 100⟩ 100
        rfl hm hrow (by norm_num) (by norm_num), toOption_ok, Option.map_some']
      exact congrArg some (decide_eq_false (by norm_num))
    · rw [hreject]
      rfl
    · rw [hreject]

/-- Witness for the amended C7: the 100% comparison on the 96%-used
store, and scenario B run from the empty store. -/
theorem claim7_amended_witness :
    (BudgetModel.isBudgetExceeded "2025-10" dbNearCap 100).toOption.map
        BudgetModel.BudgetStatus.exceeded
      = some (decide ((25 : ℚ) ≤ 24))
    ∧ exOk (BudgetModel.addCost (2/1000) "2025-10"
          (BudgetModel.addCost (24999/1000) "2025-10" dbEmpty).2).1 = false :=
  ⟨claim7_amended.2.1 "2025-10" dbNearCap ⟨"2025-10", 24, 1, 96⟩ rfl
      (by decide) rfl (by norm_num [rowInv]),
   (claim7_amended.2.2 "2025-10" dbEmpty rfl (by decide) rfl).2.2.1⟩

/-- Claim C8, counterexample. The claim says same-month `addCost(a)`
then `addCost(b)` always yields `totalUsedUSD = a + b`; with a = 20 and
b = 10 the second call instead throws (the update would drive
`total_remaining` negative), the store is unchanged, and the stored
total stays 20, not 30. -/
theorem claim8_counterexample :
    exOk (BudgetModel.addCost 20 "2025-09" dbEmpty).1 = true
    ∧ exOk (BudgetModel.addCost 10 "2025-09"
        (BudgetModel.addCost 20 "2025-09" dbEmpty).2).1 = false
    ∧ (BudgetModel.addCost 10 "2025-09"
        (BudgetModel.addCost 20 "2025-09" dbEmpty).2).2
      = (BudgetModel.addCost 20 "2025-09" dbEmpty).2
    ∧ (alGet "2025-09" (BudgetModel.addCost 10 "2025-09"
        (BudgetModel.addCost 20 "2025-09" dbEmpty).2).2.rows).map
        BudgetTracking.total_used = some 20 := by
  have h1 := addCost_cold 20 "2025-09" dbEmpty rfl rfl rfl (by norm_num)
    (by norm_num)
  have hrow : alGet "2025-09"
      (alSet "2025-09" (⟨"2025-09", 20, 25 - 20, 20 / 25 * 100⟩ : BudgetTracking)
        dbEmpty.rows) = some ⟨"2025-09", 20, 25 - 20, 20 / 25 * 100⟩ :=
    alGet_alSet_self _ _ _
  have hreject := addCost_warm_reject 10 "2025-09"
    ⟨true, alSet "2025-09" (⟨"2025-09", 20, 25 - 20, 20 / 25 * 100⟩ :
      BudgetTracking) dbEmpty.rows⟩
    ⟨"2025-09", 20, 25 - 20, 20 / 25 * 100⟩ rfl rfl hrow (by norm_num)
    (by norm_num) (by norm_num)
  refine ⟨?_, ?_, ?_, ?_⟩
  · rw [h1]
    rfl
  · rw [h1, hreject]
    rfl
  · rw [h1, hreject]
  · rw [h1, hreject]
    simp [hrow]

/-- Claim C8 as amended: within one month and within the cap
(non-negative amounts with a + b ≤ 25), `addCost(a)` then `addCost(b)`
stores `total_used = a + b` exactly (rational model); and the first
`addCost` of a month with no row yet accrues from zero — `db` is
arbitrary here, so it may hold the previous month's row at any total,
which is the claim's monthly-reset half. -/
theorem claim8_amended (a b : ℚ) (month : String) (db : BudgetDB)
    (hup : db.up = true) (hm : monthFormatOk month = true)
    (hcold : alGet month db.rows = none)
    (ha : 0 ≤ a) (hb : 0 ≤ b) (hab : a + b ≤ 25) :
    (BudgetModel.addCost a month db).1
      = .ok (some ⟨month, a, 25 - a, a / 25 * 100⟩)
    ∧ (alGet month (BudgetModel.addCost a month db).2.rows).map
        BudgetTracking.total_used = some a
    ∧ ((BudgetModel.addCost b month (BudgetModel.addCost a month db).2).1).map
        (Option.map BudgetTracking.total_used) = .ok (some (a + b))
    ∧ (alGet month (BudgetModel.addCost b month
        (BudgetModel.addCost a month db).2).2.rows).map
        BudgetTracking.total_used = some (a + b) := by
  have h1 := addCost_cold a month db hup hm hcold ha (by linarith)
  rw [h1]
  have hrow : alGet month
      (alSet month (⟨month, a, 25 - a, a / 25 * 100⟩ : BudgetTracking) db.rows)
      = some ⟨month, a, 25 - a, a / 25 * 100⟩ :=
    alGet_alSet_self month _ db.rows
  have h2 := addCost_warm b month
    ⟨true, alSet month (⟨month, a, 25 - a, a / 25 * 100⟩ : BudgetTracking) db.rows⟩
    ⟨month, a, 25 - a, a / 25 * 100⟩ rfl hm hrow hb ha (by ring) (by linarith)
  rw [h2]
  exact ⟨rfl, by simp [hrow], by simp [Except.map], by simp⟩

/-- Witness for the amended C8 at a = 1, b = 2 in month 2025-11, on a
store still holding 2025-10 at the full cap. -/
theorem claim8_amended_witness :
    ((BudgetModel.addCost 2 "2025-11" (BudgetModel.addCost 1 "2025-11"
        (⟨true, [("2025-10", ⟨"2025-10", 25, 0, 100⟩)]⟩ : BudgetDB)).2).1).map
      (Option.map BudgetTracking.total_used) = .ok (some (1 + 2)) :=
  (claim8_amended 1 2 "2025-11" ⟨true, [("2025-10", ⟨"2025-10", 25, 0, 100⟩)]⟩
    rfl (by decide) rfl (by norm_num) (by norm_num) (by norm_num)).2.2.1

/-- Claim C9: on invariant-satisfying states, an `addCost` that would
push the month past the $25 cap (updated `total_remaining` negative or
updated `percentage_used` over 100) throws a validation error before
any write, leaving the store unchanged; and whenever `addCost` does
return a row, that row — the one it stored — has `total_used ≤ 25` and
satisfies the accrual invariant again. -/
theorem claim9_cap_fail_closed (a : ℚ) (month : String) (db : BudgetDB)
    (ha : 0 ≤ a) (hup : db.up = true) (hm : monthFormatOk month = true)
    (hinv : ∀ b, alGet month db.rows = some b → rowInv b) :
    (wouldExceed a (alGet month db.rows) →
      exOk (BudgetModel.addCost a month db).1 = false
      ∧ (BudgetModel.addCost a month db).2 = db)
    ∧ (∀ r, (BudgetModel.addCost a month db).1 = .ok (some r) →
        r.total_used ≤ 25 ∧ rowInv r) := by
  cases hcur : alGet month db.rows with
  | none =>
    constructor
    · intro hex
      have ha25 : 25 < a := by
        rcases hex with h | h
        · linarith
        · have h4 : a / 25 * 100 = 4 * a := by ring
          rw [h4] at h
          linarith
      have herr : BudgetModel.addCost a month db
          = (.error "Total remaining must be non-negative", db) := by
        simp [BudgetModel.addCost, BudgetModel.getByMonthYear, parseAddCost, hm,
          hup, hcur, not_lt.mpr ha, BudgetModel.create, parseCreateBudget,
          Except.map, (by linarith : 25 - a < 0)]
      rw [herr]
      exact ⟨rfl, rfl⟩
    · intro r hok
      by_cases hbig : 25 < a
      · have herr : BudgetModel.addCost a month db
            = (.error "Total remaining must be non-negative", db) := by
          simp [BudgetModel.addCost, BudgetModel.getByMonthYear, parseAddCost, hm,
            hup, hcur, not_lt.mpr ha, BudgetModel.create, parseCreateBudget,
            Except.map, (by linarith : 25 - a < 0)]
        rw [herr] at hok
        exact absurd hok (by simp)
      · rw [addCost_cold a month db hup hm hcur ha (not_lt.mp hbig)] at hok
        have hr : r = ⟨month, a, 25 - a, a / 25 * 100⟩ := by
          simpa using hok.symm
        subst hr
        exact ⟨not_lt.mp hbig, ha, by linarith [not_lt.mp hbig], by ring, rfl⟩
  | some b =>
    obtain ⟨hbu, hbr, hbsum, hbpct⟩ := hinv b hcur
    constructor
    · intro hex
      have hover : b.total_remaining < a := by
        rcases hex with h | h
        · linarith
        · have hden : (b.total_used + a) + (b.total_remaining - a) = 25 := by
            linarith
          rw [hden] at h
          have h4 : (b.total_used + a) / 25 * 100 = 4 * (b.total_used + a) := by
            ring
          rw [h4] at h
          linarith
      rw [addCost_warm_reject a month db b hup hm hcur ha hbu hover]
      exact ⟨rfl, rfl⟩
    · intro r hok
      by_cases hover : b.total_remaining < a
      · rw [addCost_warm_reject a month db b hup hm hcur ha hbu hover] at hok
        exact absurd hok (by simp)
      · have hfits := not_lt.mp hover
        rw [addCost_warm a month db b hup hm hcur ha hbu hbsum hfits] at hok
        have hden : (b.total_used + a) + (b.total_remaining - a) = 25 := by
          linarith
        have hr : r = ⟨b.month_year, b.total_used + a, b.total_remaining - a,
            (b.total_used + a) / ((b.total_used + a) + (b.total_remaining - a))
              * 100⟩ := by
          simpa using hok.symm
        subst hr
        refine ⟨by show b.total_used + a ≤ 25; linarith,
          by show (0 : ℚ) ≤ b.total_used + a; linarith,
          by show (0 : ℚ) ≤ b.total_remaining - a; linarith,
          by show b.total_used + a + (b.total_remaining - a) = 25; linarith, ?_⟩
        show (b.total_used + a) / ((b.total_used + a) + (b.total_remaining - a))
            * 100 = (b.total_used + a) / 25 * 100
        rw [hden]

/-- Witness for C9: `addCost(30)` on an empty store for 2025-10 would
breach the cap, throws, and changes nothing. -/
theorem claim9_cap_fail_closed_witness :
    exOk (BudgetModel.addCost 30 "2025-10" dbEmpty).1 = false
    ∧ (BudgetModel.addCost 30 "2025-10" dbEmpty).2 = dbEmpty :=
  (claim9_cap_fail_closed 30 "2025-10" dbEmpty (by norm_num) rfl
    (by decide) (fun b hb => by simp [dbEmpty, alGet] at hb)).1
    (by rw [show alGet "2025-10" dbEmpty.rows = none from rfl]
        exact Or.inl (by norm_num))

/-! ## Redis store, cache service and rate limiter

Embeds `src/services/redis.ts` (unnamed part_002). The keyspace holds
either a cached analysis payload (a JSON blob, whose
stringify/parse round-trip is the identity on these records) or an
integer counter. Expiry is an absolute second timestamp per key; an
expired key behaves as absent and is lazily dropped, as Redis does.
`redis.incr` on a missing or expired key creates the counter at 1 with
no expiry; on a live counter it preserves the remaining TTL.
Backing-store failure is `up = false`: every primitive command then
returns an error, caught where the source catches it. -/

/-- The analysis-result fields cached by `cacheAnalysisResult`. -/
structure AnalysisResultData where
  is_fake : Bool
  confidence : ℚ
  explanation : String
  suspicious_phrases : List String
  recommendations : String
  model_used : String
deriving DecidableEq, Repr

/-- The cached object: the result spread together with `text`, `url`,
`cached_at` and `ttl`, as built in `CacheModel.cacheAnalysisResult`. -/
structure CacheBlob where
  res : AnalysisResultData
  text : String
  url : Option String
  cached_at : Nat
  ttl : Nat
deriving DecidableEq, Repr

/-- A Redis value: a cached JSON blob or an integer counter. -/
inductive RVal where
  | blob : CacheBlob → RVal
  | num : Int → RVal
deriving DecidableEq, Repr

/-- The Redis instance: health flag, keyspace, and per-key absolute
expiry times (seconds). -/
structure Redis where
  up : Bool
  kv : List (String × RVal)
  exp : List (String × Nat)
deriving DecidableEq, Repr

/-- A key whose expiry time has passed counts as gone. -/
def isExpired (r : Redis) (now : Nat) (k : String) : Bool :=
  match alGet k r.exp with
  | some e => decide (e ≤ now)
  | none => false

/-- Lazy deletion of an expired key, as Redis performs on access. -/
def purge (r : Redis) (now : Nat) (k : String) : Redis :=
  if isExpired r now k then ⟨r.up, alDel k r.kv, alDel k r.exp⟩ else r

/-- The GET command. -/
def redisGetCmd (r : Redis) (now : Nat) (k : String) :
    Except String (Option RVal) :=
  if r.up then .ok (alGet k (purge r now k).kv) else .error "redis down"

/-- The SETEX command: value plus absolute expiry `now + ttl`. -/
def redisSetEx (r : Redis) (now : Nat) (k : String) (ttl : Nat) (v : RVal) :
    Except String Redis :=
  if r.up then .ok ⟨r.up, alSet k v r.kv, alSet k (now + ttl) r.exp⟩
  else .error "redis down"

/-- The INCR command: creates a counter at 1 (with no expiry) on a
missing or expired key, increments a live counter keeping its TTL, and
rejects a non-integer value. -/
def redisIncr (r : Redis) (now : Nat) (k : String) :
    Except String (Int × Redis) :=
  if r.up then
    let r1 := purge r now k
    match alGet k r1.kv with
    | some (.num n) => .ok (n + 1, ⟨r1.up, alSet k (.num (n + 1)) r1.kv, r1.exp⟩)
    | some (.blob _) => .error "WRONGTYPE"
    | none => .ok (1, ⟨r1.up, alSet k (.num 1) r1.kv, r1.exp⟩)
  else .error "redis down"

/-- The EXPIRE command: attaches an absolute expiry to a live key. -/
def redisExpireCmd (r : Redis) (now : Nat) (k : String) (secs : Nat) :
    Except String (Bool × Redis) :=
  if r.up then
    let r1 := purge r now k
    match alGet k r1.kv with
    | some _ => .ok (true, ⟨r1.up, r1.kv, alSet k (now + secs) r1.exp⟩)
    | none => .ok (false, r1)
  else .error "redis down"

/-- The TTL command: -2 for a missing key, -1 for a key without expiry,
else the remaining seconds. -/
def redisTtlCmd (r : Redis) (now : Nat) (k : String) : Except String Int :=
  if r.up then
    let r1 := purge r now k
    match alGet k r1.kv with
    | none => .ok (-2)
    | some _ =>
      match alGet k r1.exp with
      | none => .ok (-1)
      | some e => .ok ((e : Int) - (now : Int))
  else .error "redis down"

/-- Embeds `cacheAnalysis` (part_002 lines 43-49): `setEx` inside a
`try` whose `catch` only logs — on failure the store is untouched and
nothing is raised. -/
def cacheAnalysis (key : String) (data : CacheBlob) (ttl : Nat) (now : Nat)
    (r : Redis) : Redis :=
  match redisSetEx r now key ttl (.blob data) with
  | .ok r2 => r2
  | .error _ => r

/-- Embeds `getCachedAnalysis` (part_002 lines 51-59): `get` inside a
`try` whose `catch` returns null — failure degrades to a miss. A stray
counter value is not a cached analysis and yields null. -/
def getCachedAnalysis (key : String) (now : Nat) (r : Redis) : Option CacheBlob :=
  match redisGetCmd r now key with
  | .ok (some (.blob b)) => some b
  | .ok (some (.num _)) => none
  | .ok none => none
  | .error _ => none

/-- Result record of `checkRateLimit`. -/
structure RLResult where
  allowed : Bool
  remaining : Int
  resetTime : Int
deriving DecidableEq, Repr

/-- The `try` body of `checkRateLimit` (part_002 lines 62-79): INCR,
EXPIRE on the increment that created the counter (`current === 1`),
then TTL; `allowed = current <= limit`, `remaining = max(0, limit -
current)`, `resetTime = Date.now() + ttl*1000`. -/
def checkRateLimitE (identifier : String) (limit : Int) (timeWindow : Nat)
    (now : Nat) (r : Redis) : Except String (RLResult × Redis) :=
  let key := "rate_limit:" ++ identifier
  match redisIncr r now key with
  | .error e => .error e
  | .ok (current, r1) =>
    match (if current = 1
           then (redisExpireCmd r1 now key timeWindow).map Prod.snd
           else .ok r1) with
    | .error e => .error e
    | .ok r2 =>
      match redisTtlCmd r2 now key with
      | .error e => .error e
      | .ok ttl =>
        .ok (⟨decide (current ≤ limit), max 0 (limit - current),
              (now : Int) * 1000 + ttl * 1000⟩, r2)

/-- Embeds `checkRateLimit` (part_002 lines 62-85): the `catch` branch
fails open with `allowed = true`, `remaining = limit` and a reset one
window away. -/
def checkRateLimit (identifier : String) (limit : Int) (timeWindow : Nat)
    (now : Nat) (r : Redis) : RLResult × Redis :=
  match checkRateLimitE identifier limit timeWindow now r with
  | .ok x => x
  | .error _ =>
    (⟨true, limit, (now : Int) * 1000 + (timeWindow : Int) * 1000⟩, r)

/-- Sequential `checkRateLimit` calls at the given times, threading the
store. -/
def runChecks (identifier : String) (limit : Int) (window : Nat) :
    List Nat → Redis → List RLResult × Redis
  | [], r => ([], r)
  | t :: ts, r =>
    let s1 := checkRateLimit identifier limit window t r
    let s2 := runChecks identifier limit window ts s1.2
    (s1.1 :: s2.1, s2.2)

/-- The result the fixed-window algorithm produces for a call that
finds the counter at `n` with the window ending at `e`: allowed while
`n ≤ limit`, `remaining = max 0 (limit - n)`, and a reset at the
window's fixed end. -/
def expectedRL (limit : Int) (e : Nat) (n : Int) (t : Nat) : RLResult :=
  ⟨decide (n ≤ limit), max 0 (limit - n),
   (t : Int) * 1000 + ((e : Int) - (t : Int)) * 1000⟩

/-- Expected results of a run whose calls arrive with the counter at
`c` and the window ending at `e`. -/
def expectedList (limit : Int) (e : Nat) (c : Int) : List Nat → List RLResult
  | [] => []
  | t :: ts => expectedRL limit e (c + 1) t :: expectedList limit e (c + 1) ts

/-- One `checkRateLimit` call against a live counter `c ≥ 1` whose
window ends at `e`: increments to `c + 1`, never touches the expiry,
and reports the fixed window end. -/
theorem checkRateLimit_live (id : String) (limit : Int) (window t : Nat)
    (r : Redis) (c : Int) (e : Nat) (hup : r.up = true)
    (hc : alGet ("rate_limit:" ++ id) r.kv = some (.num c))
    (he : alGet ("rate_limit:" ++ id) r.exp = some e)
    (ht : t < e) (hc1 : 1 ≤ c) :
    checkRateLimit id limit window t r
      = (expectedRL limit e (c + 1) t,
         ⟨true, alSet ("rate_limit:" ++ id) (.num (c + 1)) r.kv, r.exp⟩) := by
  have hlive : ¬ (e ≤ t) := by omega
  have hpurge : purge r t ("rate_limit:" ++ id) = r := by
    simp [purge, isExpired, he, hlive]
  have hne1 : ¬ (c + 1 = 1) := by omega
  simp [checkRateLimit, checkRateLimitE, redisIncr, redisTtlCmd, purge, isExpired,
    hup, hpurge, hc, he, hne1, hlive, expectedRL]

/-- The `checkRateLimit` call that creates the counter (the first of a
window): the increment yields 1, and only this call attaches the
expiry `t + window`. -/
theorem checkRateLimit_create (id : String) (limit : Int) (window t : Nat)
    (r : Redis) (hup : r.up = true)
    (hkv : alGet ("rate_limit:" ++ id) r.kv = none)
    (hexp : alGet ("rate_limit:" ++ id) r.exp = none)
    (hw : 1 ≤ window) :
    checkRateLimit id limit window t r
      = (expectedRL limit (t + window) 1 t,
         ⟨true, alSet ("rate_limit:" ++ id) (.num 1) r.kv,
          alSet ("rate_limit:" ++ id) (t + window) r.exp⟩) := by
  have hlive : ¬ (t + window ≤ t) := by omega
  simp [checkRateLimit, checkRateLimitE, redisIncr, redisExpireCmd, redisTtlCmd,
    purge, isExpired, hup, hkv, hexp, hlive, Except.map, expectedRL]

/-- A run of `checkRateLimit` calls against a live counter `c ≥ 1`
whose fixed window ends at `e`, all arriving before `e`: the results
follow the counts `c+1, c+2, …`, the final counter is `c + n`, and the
expiry map is never touched. -/
theorem runChecks_live (id : String) (limit : Int) (window : Nat)
    (ts : List Nat) :
    ∀ (r : Redis) (c : Int) (e : Nat), r.up = true →
    alGet ("rate_limit:" ++ id) r.kv = some (.num c) →
    alGet ("rate_limit:" ++ id) r.exp = some e →
    1 ≤ c → (∀ t ∈ ts, t < e) →
    (runChecks id limit window ts r).1 = expectedList limit e c ts
    ∧ alGet ("rate_limit:" ++ id) (runChecks id limit window ts r).2.kv
        = some (.num (c + ts.length))
    ∧ (runChecks id limit window ts r).2.exp = r.exp
    ∧ (runChecks id limit window ts r).2.up = true := by
  induction ts with
  | nil =>
    intro r c e hup hc he hcpos hts
    refine ⟨rfl, ?_, rfl, hup⟩
    simpa using hc
  | cons t ts ih =>
    intro r c e hup hc he hcpos hts
    have hstep := checkRateLimit_live id limit window t r c e hup hc he
      (hts t (by simp)) hcpos
    have ih2 := ih ⟨true, alSet ("rate_limit:" ++ id) (.num (c + 1)) r.kv, r.exp⟩
      (c + 1) e rfl (alGet_alSet_self _ _ _) he (by omega)
      (fun t2 ht2 => hts t2 (by simp [ht2]))
    have hcount : c + 1 + (ts.length : Int) = c + ((ts.length + 1 : Nat) : Int) := by
      push_cast
      ring
    simp only [runChecks, hstep]
    refine ⟨?_, ?_, ?_, ?_⟩
    · simp only [expectedList]
      exact congrArg _ ih2.1
    · rw [ih2.2.1]
      simp [hcount]
    · exact ih2.2.2.1
    · exact ih2.2.2.2

/-- Index reading of `expectedList`: the entry at position `n` is the
result for the call that found the counter at `c + n`. -/
theorem expectedList_get (limit : Int) (e : Nat) :
    ∀ (ts : List Nat) (c : Int) (n : Nat) (res : RLResult),
    (expectedList limit e c ts)[n]? = some res →
    res = expectedRL limit e (c + n + 1) (ts.getD n 0) := by
  intro ts
  induction ts with
  | nil =>
    intro c n res h
    simp [expectedList] at h
  | cons t ts ih =>
    intro c n res h
    cases n with
    | zero =>
      simp [expectedList] at h
      simp [h]
    | succ n =>
      simp only [expectedList, List.getElem?_cons_succ] at h
      have := ih (c + 1) n res h
      rw [this]
      have harith : c + 1 + (n : Int) + 1 = c + ((n + 1 : Nat) : Int) + 1 := by
        push_cast
        ring
      simp [harith, List.getD]

/-- Claim C4: starting from a store with no counter for the identifier,
a sequence of `check` calls — the first at `t0`, the rest at any times
before the window's end `t0 + W` — behaves as the fixed-window contract
says. The n-th call (1-based) returns `allowed = (n ≤ L)`,
`remaining = max 0 (L - n)` and `resetTimeMillis = now*1000 +
remainingTTL*1000` with the TTL measured to the fixed end `t0 + W`
(this is `expectedList`, built from exactly those formulas); the
expiration is attached only by the increment that created the counter
(the first call) and the expiry map is never touched again, so the
final expiry is still `t0 + W`; and the final counter equals the number
of calls. -/
theorem claim4_fixed_window (id : String) (limit : Int) (window t0 : Nat)
    (ts : List Nat) (r : Redis)
    (hup : r.up = true)
    (hkv : alGet ("rate_limit:" ++ id) r.kv = none)
    (hexp : alGet ("rate_limit:" ++ id) r.exp = none)
    (hw : 1 ≤ window)
    (hts : ∀ t ∈ ts, t < t0 + window) :
    (runChecks id limit window (t0 :: ts) r).1
      = expectedList limit (t0 + window) 0 (t0 :: ts)
    ∧ alGet ("rate_limit:" ++ id)
        (runChecks id limit window (t0 :: ts) r).2.kv
        = some (.num (1 + ts.length))
    ∧ alGet ("rate_limit:" ++ id)
        (runChecks id limit window (t0 :: ts) r).2.exp
        = some (t0 + window)
    ∧ (∀ (n : Nat) (res : RLResult),
        ((runChecks id limit window (t0 :: ts) r).1)[n]? = some res →
        res.allowed = decide ((n : Int) + 1 ≤ limit)
        ∧ res.remaining = max 0 (limit - ((n : Int) + 1))) := by
  have hstep := checkRateLimit_create id limit window t0 r hup hkv hexp hw
  have hlive := runChecks_live id limit window ts
    ⟨true, alSet ("rate_limit:" ++ id) (.num 1) r.kv,
     alSet ("rate_limit:" ++ id) (t0 + window) r.exp⟩ 1 (t0 + window) rfl
    (alGet_alSet_self _ _ _) (alGet_alSet_self _ _ _) (by omega) hts
  have hres : (runChecks id limit window (t0 :: ts) r).1
      = expectedList limit (t0 + window) 0 (t0 :: ts) := by
    simp only [runChecks, hstep, expectedList]
    have h01 : (0 : Int) + 1 = 1 := by ring
    rw [h01]
    exact congrArg _ hlive.1
  refine ⟨hres, ?_, ?_, ?_⟩
  · simp only [runChecks, hstep]
    rw [hlive.2.1]
  · simp only [runChecks, hstep]
    rw [hlive.2.2.1]
    exact alGet_alSet_self _ _ _
  · intro n res h
    rw [hres] at h
    have := expectedList_get limit (t0 + window) (t0 :: ts) 0 n res h
    rw [this]
    constructor
    · show decide ((0 : Int) + n + 1 ≤ limit) = decide ((n : Int) + 1 ≤ limit)
      norm_num
    · show max 0 (limit - ((0 : Int) + n + 1)) = max 0 (limit - ((n : Int) + 1))
      norm_num

/-- Witness for C4: identifier `ip1`, limit 2, window 10 seconds, three
calls at 0, 3 and 5 on an empty healthy store — results follow the
contract, the third call is denied, the counter ends at 3 and the
expiry is the fixed 10. -/
theorem claim4_fixed_window_witness :
    (runChecks "ip1" 2 10 [0, 3, 5] ⟨true, [], []⟩).1
      = expectedList 2 (0 + 10) 0 [0, 3, 5]
    ∧ alGet ("rate_limit:" ++ "ip1")
        (runChecks "ip1" 2 10 [0, 3, 5] ⟨true, [], []⟩).2.exp
        = some (0 + 10)
    ∧ (runChecks "ip1" 2 10 [0, 3, 5] ⟨true, [], []⟩).1.map RLResult.allowed
        = [true, true, false] :=
  have h := claim4_fixed_window "ip1" 2 10 0 [3, 5] ⟨true, [], []⟩ rfl rfl rfl
    (by omega) (by intro t ht; fin_cases ht <;> omega)
  ⟨h.1, h.2.2.1, by decide⟩

/-- Claim C5: with the backing store down, `getCachedAnalysis` returns
null, `cacheAnalysis` leaves the store untouched, and `checkRateLimit`
fails open with `allowed = true`, `remaining = limit` and a reset one
window away — none of the three raises, being total functions whose
`catch` branches produce exactly these values. -/
theorem claim5_fail_open (key : String) (data : CacheBlob) (ttl now : Nat)
    (id : String) (limit : Int) (window : Nat) (r : Redis)
    (hdown : r.up = false) :
    getCachedAnalysis key now r = none
    ∧ cacheAnalysis key data ttl now r = r
    ∧ checkRateLimit id limit window now r
        = (⟨true, limit, (now : Int) * 1000 + (window : Int) * 1000⟩, r) := by
  refine ⟨?_, ?_, ?_⟩ <;>
    simp [getCachedAnalysis, redisGetCmd, cacheAnalysis, redisSetEx,
      checkRateLimit, checkRateLimitE, redisIncr, hdown]

/-- Witness for C5 on a concrete down store. -/
theorem claim5_fail_open_witness :
    getCachedAnalysis "analysis:k" 7 ⟨false, [], []⟩ = none
    ∧ cacheAnalysis "analysis:k" ⟨⟨true, 1, "e", [], "r", "m"⟩, "t", none, 0, 60⟩
        3600 7 ⟨false, [], []⟩ = ⟨false, [], []⟩
    ∧ checkRateLimit "ip1" 10 3600 7 ⟨false, [], []⟩
        = (⟨true, 10, (7 : Int) * 1000 + (3600 : Int) * 1000⟩,
           ⟨false, [], []⟩) :=
  claim5_fail_open "analysis:k" ⟨⟨true, 1, "e", [], "r", "m"⟩, "t", none, 0, 60⟩
    3600 7 "ip1" 10 3600 ⟨false, [], []⟩ rfl

/-! ## CacheModel

Embeds the cache half of unnamed part_001 (`CacheModel.ts`):
`CacheKeySchema` (length 1..500) and `CacheTTLSchema` (1..86400
seconds) become validating conditions, and the methods delegate to the
redis service functions above with the key from
`generateAnalysisKey`. -/

namespace CacheModel

/-- Embeds `CacheModel.set` (part_001 lines 300-305): validate key and
TTL, then `cacheAnalysis` (which itself absorbs store failure). -/
def set (key : String) (data : CacheBlob) (ttl : Nat) (now : Nat) (r : Redis) :
    Except String Redis :=
  if key.length < 1 then .error "Cache key is required"
  else if 500 < key.length then .error "Cache key too long"
  else if ttl < 1 then .error "TTL must be at least 1 second"
  else if 86400 < ttl then .error "TTL cannot exceed 24 hours"
  else .ok (cacheAnalysis key data ttl now r)

/-- Embeds `CacheModel.get` (lines 307-311): validate the key, then
`getCachedAnalysis`. -/
def get (key : String) (now : Nat) (r : Redis) :
    Except String (Option CacheBlob) :=
  if key.length < 1 then .error "Cache key is required"
  else if 500 < key.length then .error "Cache key too long"
  else .ok (FakeNews.getCachedAnalysis key now r)

/-- Embeds `CacheModel.getCachedAnalysis` (lines 330-333): derive the
key from text/url and read it. -/
def getCachedAnalysis (text : String) (url : Option String) (now : Nat)
    (r : Redis) : Except String (Option CacheBlob) :=
  get (generateAnalysisKey text url) now r

/-- Embeds `CacheModel.cacheAnalysisResult` (lines 342-368): build the
cached object (result fields plus text, url, `cached_at`, ttl) and
store it under the derived key, returning the key. -/
def cacheAnalysisResult (text : String) (url : Option String)
    (res : AnalysisResultData) (ttl : Nat) (now : Nat) (r : Redis) :
    Except String (String × Redis) :=
  let cacheKey := generateAnalysisKey text url
  match set cacheKey ⟨res, text, url, now, ttl⟩ ttl now r with
  | .error e => .error e
  | .ok r2 => .ok (cacheKey, r2)

/-- Embeds `CacheModel.getCachedAnalysisResult` (lines 371-382): just
`getCachedAnalysis`. -/
def getCachedAnalysisResult (text : String) (url : Option String) (now : Nat)
    (r : Redis) : Except String (Option CacheBlob) :=
  getCachedAnalysis text url now r

end CacheModel

/-! ## AnalysisModel and StatisticsModel -/

/-- Row of the `analyses` table; ids are modelled by insertion index. -/
structure AnalysisRow where
  id : Nat
  text_content : String
  url : Option String
  is_fake : Bool
  confidence : ℚ
  explanation : String
  suspicious_phrases : List String
  recommendations : String
  model_used : Option String
  created_at : Nat
  updated_at : Nat
deriving DecidableEq, Repr

/-- The `analyses` table with its pool-health flag. -/
structure AnalysisDB where
  up : Bool
  rows : List AnalysisRow
deriving DecidableEq, Repr

/-- The `url` rule of `CreateAnalysisSchema`:
`z.string().url().optional().or(z.literal(''))` — absent is fine, the
empty string is fine, and otherwise the string must be a well-formed
URL, a check performed by the zod library and abstracted here as the
predicate parameter `uv`. -/
def urlFieldOk (uv : String → Bool) : Option String → Bool
  | none => true
  | some u => if u = "" then true else uv u

/-- The TS expression `validatedInput.url || null`: an empty string is
falsy and stored as null. -/
def urlOrNull : Option String → Option String
  | none => none
  | some u => if u = "" then none else some u

/-- Embeds `CreateAnalysisSchema.parse` of
`src/server/src/models/AnalysisModel.ts` for the analysis record the
resolver builds: text 1..10000 chars, url per `urlFieldOk`, confidence
in [0,1], explanation 1..2000, recommendations 1..1000, model name at
most 100 chars. -/
def parseCreateAnalysis (uv : String → Bool) (text : String)
    (url : Option String) (d : AnalysisResultData) : Except String Unit :=
  if text.length < 1 then .error "Text content is required"
  else if 10000 < text.length then .error "Text content too long"
  else if ¬ urlFieldOk uv url then .error "Invalid URL format"
  else if d.confidence < 0 then .error "Confidence must be at least 0"
  else if 1 < d.confidence then .error "Confidence must be at most 1"
  else if d.explanation.length < 1 then .error "Explanation is required"
  else if 2000 < d.explanation.length then .error "Explanation too long"
  else if d.recommendations.length < 1 then .error "Recommendations are required"
  else if 1000 < d.recommendations.length then .error "Recommendations too long"
  else if 100 < d.model_used.length then .error "Model name too long"
  else .ok ()

namespace AnalysisModel

/-- Embeds `AnalysisModel.create` (AnalysisModel.ts lines 60-85):
validate, then INSERT the row (with `url || null` and
`model_used || null` as stored). -/
def create (uv : String → Bool) (text : String) (url : Option String)
    (d : AnalysisResultData) (db : AnalysisDB) (now : Nat) :
    Except String (AnalysisRow × AnalysisDB) :=
  match parseCreateAnalysis uv text url d with
  | .error e => .error e
  | .ok _ =>
    if db.up then
      let row : AnalysisRow :=
        ⟨db.rows.length, text, urlOrNull url, d.is_fake, d.confidence,
         d.explanation, d.suspicious_phrases, d.recommendations,
         (if d.model_used = "" then none else some d.model_used), now, now⟩
      .ok (row, ⟨true, db.rows ++ [row]⟩)
    else .error "pool down"

end AnalysisModel

/-! ## StatisticsModel

Embeds the statistics half of `src/server/src/models/AnalysisModel.ts`
(lines 286-411): `CreateStatisticsSchema`/`UpdateStatisticsSchema`
become validating conditions, the `statistics` table becomes a list of
rows (ids by insertion index), and `get_analysis_stats()` — the
Postgres function of `db/create_tables.sql` — becomes a fold over the
`news_analyses` table it reads (note: that is a separate table from
the `analyses` table `AnalysisModel` writes). The counts are naturals,
so the schemas' `int().min(0)` checks are carried by the type. -/

/-- Row of the `statistics` table. -/
structure StatisticsRow where
  id : Nat
  total_analyses : Nat
  fake_news_count : Nat
  legitimate_news_count : Nat
  average_confidence : ℚ
  last_updated : Nat
deriving DecidableEq, Repr

/-- Row of the `news_analyses` table, with the fields
`get_analysis_stats()` aggregates. -/
structure NewsAnalysisRow where
  is_fake : Bool
  confidence_score : ℚ
deriving DecidableEq, Repr

/-- The statistics side of the Postgres pool: health flag, the
`news_analyses` table the stats function reads, and the `statistics`
table the model writes. -/
structure StatsDB where
  up : Bool
  newsRows : List NewsAnalysisRow
  rows : List StatisticsRow
deriving DecidableEq, Repr

/-- Embeds `CreateStatisticsSchema.parse` for the fully-specified input
`recalculate` builds: the three counts are non-negative integers (held
by `Nat`), and `0 ≤ average_confidence ≤ 1`. -/
def parseCreateStatistics (avg : ℚ) : Except String Unit :=
  if avg < 0 then .error "Average confidence must be at least 0"
  else if 1 < avg then .error "Average confidence must be at most 1"
  else .ok ()

/-- Embeds `UpdateStatisticsSchema.parse` for the fully-specified
update `recalculate` issues: same bounds. -/
def parseUpdateStatistics (avg : ℚ) : Except String Unit :=
  if avg < 0 then .error "Average confidence must be at least 0"
  else if 1 < avg then .error "Average confidence must be at most 1"
  else .ok ()

namespace StatisticsModel

/-- Embeds `StatisticsModel.create` (AnalysisModel.ts lines 287-306):
validate, then INSERT the statistics row. -/
def create (total fake legit : Nat) (avg : ℚ) (db : StatsDB) (now : Nat) :
    Except String (StatisticsRow × StatsDB) :=
  match parseCreateStatistics avg with
  | .error e => .error e
  | .ok _ =>
    if db.up then
      let row : StatisticsRow := ⟨db.rows.length, total, fake, legit, avg, now⟩
      .ok (row, ⟨true, db.newsRows, db.rows ++ [row]⟩)
    else .error "pool down"

/-- Embeds `StatisticsModel.update` (lines 331-370) as `recalculate`
issues it, with all four fields present: validate, then UPDATE the row
with the given id, setting `last_updated = NOW()`; returns the updated
row or `none` when no row has that id. -/
def update (id : Nat) (total fake legit : Nat) (avg : ℚ) (db : StatsDB)
    (now : Nat) : Except String (Option StatisticsRow × StatsDB) :=
  match parseUpdateStatistics avg with
  | .error e => .error e
  | .ok _ =>
    if db.up then
      match db.rows.find? (fun r => r.id = id) with
      | none => .ok (none, db)
      | some _ =>
        let newRow : StatisticsRow := ⟨id, total, fake, legit, avg, now⟩
        .ok (some newRow,
             ⟨true, db.newsRows,
              db.rows.map (fun r => if r.id = id then newRow else r)⟩)
    else .error "pool down"

end StatisticsModel

/-! ## The analyzeText resolver

Embeds `analysisResolvers.Mutation.analyzeText`
(`src/server/src/resolvers/analysisResolver.ts` lines 163-263). The
whole body sits in one `try` whose `catch` returns
`{success:false, analysis:null, error, cached:false}`; each await-step
that can throw is therefore a `match` whose error branch produces that
response with the state as already mutated by the preceding steps.
The inline mock block stands in for the Classifier collaborator (the
`TODO` marks the future OpenAI call); its two `Math.random()` draws are
the `randFake`/`rand2` oracle parameters, and `mockCalls` counts its
executions — the claims' "Classifier invocations". -/

/-- A redis read of a live cached blob is a hit. -/
theorem getCachedAnalysis_hit (k : String) (now : Nat) (r : Redis)
    (b : CacheBlob) (e : Nat) (hup : r.up = true)
    (hkv : alGet k r.kv = some (.blob b)) (hexp : alGet k r.exp = some e)
    (hlt : now < e) : getCachedAnalysis k now r = some b := by
  have hlive : ¬ (e ≤ now) := by omega
  simp [getCachedAnalysis, redisGetCmd, purge, isExpired, hup, hexp, hlive, hkv]

/-- The cache write of the resolver (TTL 3600) passes validation and
reduces to the redis SETEX wrapper. -/
theorem cacheAnalysisResult_eval (text : String) (url : Option String)
    (res : AnalysisResultData) (now : Nat) (r : Redis) :
    CacheModel.cacheAnalysisResult text url res 3600 now r
      = .ok (generateAnalysisKey text url,
             cacheAnalysis (generateAnalysisKey text url)
               ⟨res, text, url, now, 3600⟩ 3600 now r) := by
  have hlen := generateAnalysisKey_length text url
  simp [CacheModel.cacheAnalysisResult, CacheModel.set, hlen]

/-- SETEX on a healthy store writes value and expiry. -/
theorem cacheAnalysis_up (k : String) (b : CacheBlob) (ttl now : Nat)
    (r : Redis) (hup : r.up = true) :
    cacheAnalysis k b ttl now r
      = ⟨true, alSet k (.blob b) r.kv, alSet k (now + ttl) r.exp⟩ := by
  simp [cacheAnalysis, redisSetEx, hup]

set_option maxRecDepth 100000 in
/-- Claim C10, counterexample. The claim quantifies over every url, but
the key derivation tests JS truthiness: for the supplied-but-empty url
the key falls back to the text content, so two different texts with
url = "" get different keys (their SHA-256 digests differ). -/
theorem claim10_counterexample :
    generateAnalysisKey "a" (some "") = generateAnalysisKey "a" none
    ∧ generateAnalysisKey "a" (some "") ≠ generateAnalysisKey "b" (some "") :=
  ⟨rfl, by decide⟩

/-- Claim C10 as amended: for every non-empty url the text has no
influence on the cache key — the keys for (t1, url) and (t2, url)
coincide — and consequently, on a healthy store, a cache write
performed for (t1, url) is returned by a read for (t2, url) within the
TTL: the reader receives the entry computed from t1. (For url = "",
which is falsy in JS, the key is derived from the text instead.) -/
theorem claim10_amended (u : String) (hu : u ≠ "") (t1 t2 : String) :
    generateAnalysisKey t1 (some u) = generateAnalysisKey t2 (some u)
    ∧ (∀ (res : AnalysisResultData) (now tr : Nat) (r : Redis),
        r.up = true → tr < now + 3600 →
        (CacheModel.cacheAnalysisResult t1 (some u) res 3600 now r).map
            (fun kr => CacheModel.getCachedAnalysisResult t2 (some u) tr kr.2)
          = .ok (.ok (some ⟨res, t1, some u, now, 3600⟩))) := by
  have hkey : generateAnalysisKey t1 (some u) = generateAnalysisKey t2 (some u) := by
    simp [generateAnalysisKey, hu]
  refine ⟨hkey, ?_⟩
  intro res now tr r hup htr
  rw [cacheAnalysisResult_eval,
    cacheAnalysis_up (generateAnalysisKey t1 (some u)) ⟨res, t1, some u, now, 3600⟩
      3600 now r hup]
  have hlen := generateAnalysisKey_length t2 (some u)
  simp only [Except.map, CacheModel.getCachedAnalysisResult,
    CacheModel.getCachedAnalysis, CacheModel.get, hlen]
  rw [← hkey]
  have hhit := getCachedAnalysis_hit (generateAnalysisKey t1 (some u)) tr
    ⟨true,
     alSet (generateAnalysisKey t1 (some u)) (.blob ⟨res, t1, some u, now, 3600⟩)
       r.kv,
     alSet (generateAnalysisKey t1 (some u)) (now + 3600) r.exp⟩
    ⟨res, t1, some u, now, 3600⟩ (now + 3600) rfl (alGet_alSet_self _ _ _)
    (alGet_alSet_self _ _ _) htr
  simp [hhit]

/-- Witness for the amended C10: identical keys for two texts under a
real URL, and the written-then-read round trip on an empty healthy
store. -/
theorem claim10_amended_witness :
    generateAnalysisKey "a" (some "https://example.com/x")
      = generateAnalysisKey "b" (some "https://example.com/x")
    ∧ (CacheModel.cacheAnalysisResult "a" (some "https://example.com/x")
          ⟨true, 1, "e", [], "r", "m"⟩ 3600 50 ⟨true, [], []⟩).map
        (fun kr => CacheModel.getCachedAnalysisResult "b"
          (some "https://example.com/x") 60 kr.2)
      = .ok (.ok (some ⟨⟨true, 1, "e", [], "r", "m"⟩, "a",
          some "https://example.com/x", 50, 3600⟩)) :=
  have h := claim10_amended "https://example.com/x" (by decide) "a" "b"
  ⟨h.1, h.2 ⟨true, 1, "e", [], "r", "m"⟩ 50 60 ⟨true, [], []⟩ rfl (by omega)⟩

end FakeNews
